import Mathlib

/-!
Shallow embedding of the persistence and upload core of
`src/src-tauri/src/lib.rs` (rent-software-v2): the SQLite-backed key/value
cache (`local_cache`), the durable sync outbox queue (`sync_queue`), the
in-memory cancellation registry (`UploadState`), and the progress-reporting
streaming reader (`ProgressReader`).

Modelling conventions:
- The external `serde_json` library is modelled by its contract: a TEXT cell
  written through `serde_json::to_string` is inverted by
  `serde_json::from_str`; any other cell content fails to decode.
- SQLite tables become explicit Lean states; each Tauri command becomes a
  pure function on that state.  `now_ms()` is passed in as an argument.
- The SQL `LIKE` operator (used by `cache_delete_prefix`) is implemented with
  SQLite's default semantics: `%` matches any run of characters, `_` matches
  exactly one character, and ASCII letters compare case-insensitively.
- `Arc<AtomicBool>` sharing in the registry is modelled with an explicit heap
  of flags addressed by index, so "the shared flag" is a statable notion.
-/

/-- JSON values as carried by `serde_json::Value` in the source (numbers are
modelled as integers; no claim depends on float behaviour). -/
inductive Json where
  | null
  | bool (b : Bool)
  | num (n : Int)
  | str (s : String)
  | arr (items : List Json)
  | obj (fields : List (String × Json))

/-- Content of a TEXT cell as seen through the external `serde_json` library:
either the serialization of a JSON value (which `from_str` inverts) or a
malformed blob that `from_str` rejects. -/
inductive StoredText where
  | wellFormed (v : Json)
  | malformed (raw : String)

/-- `serde_json::from_str` on a stored TEXT cell. -/
def decodeStored : StoredText → Option Json
  | .wellFormed v => some v
  | .malformed _ => none

/-- `serde_json::to_string` of a JSON value. -/
def encodeStored (v : Json) : StoredText := .wellFormed v

/-- One row of the `local_cache` table. -/
structure CacheRow where
  key : String
  value : StoredText
  updated_at : Int

/-- The `local_cache` table (`key` is the PRIMARY KEY, kept unique by the
operations below). -/
structure CacheState where
  rows : List CacheRow

/-- Row returned by `SELECT ... FROM local_cache WHERE key = ?1` (first row
with the key; the PRIMARY KEY admits at most one). -/
def lookupRow : List CacheRow → String → Option CacheRow
  | [], _ => none
  | r :: rs, k => if r.key = k then some r else lookupRow rs k

/-- The value returned to the frontend by `cache_get` (struct `CacheEntry`). -/
structure CacheEntry where
  value : Json
  updated_at : Int

/-- `cache_get` (lib.rs 179-193): look the key up; a malformed stored value is
replaced by JSON null via `unwrap_or(serde_json::Value::Null)`. -/
def cache_get (st : CacheState) (k : String) : Except String (Option CacheEntry) :=
  match lookupRow st.rows k with
  | some r =>
    .ok (some { value := (decodeStored r.value).getD Json.null, updated_at := r.updated_at })
  | none => .ok none

/-- `cache_set` (lib.rs 195-206): `INSERT OR REPLACE` keyed on the PRIMARY KEY,
storing `serde_json::to_string(&value)` and the current time. -/
def cache_set (st : CacheState) (k : String) (v : Json) (now_ms : Int) : CacheState :=
  { rows := { key := k, value := encodeStored v, updated_at := now_ms } ::
      st.rows.filter (fun r => decide (r.key ≠ k)) }

/-- `cache_delete` (lib.rs 208-214): `DELETE FROM local_cache WHERE key = ?1`. -/
def cache_delete (st : CacheState) (k : String) : CacheState :=
  { rows := st.rows.filter (fun r => decide (r.key ≠ k)) }

/-- ASCII-only lower-casing, as applied by SQLite's default `LIKE`. -/
def asciiLower (c : Char) : Char :=
  if 65 ≤ c.toNat ∧ c.toNat ≤ 90 then Char.ofNat (c.toNat + 32) else c

/-- Character comparison used by SQLite's default `LIKE`: case-insensitive on
the ASCII range, exact elsewhere. -/
def likeCharEq (p c : Char) : Bool := asciiLower p == asciiLower c

/-- SQLite `LIKE` pattern matching with default options (no ESCAPE clause,
`case_sensitive_like` off): `%` matches any run of zero or more characters,
`_` matches exactly one character, anything else matches via `likeCharEq`.
Fuel-based so that the definition is structurally recursive and evaluates
inside the kernel; `likeMatch` below supplies sufficient fuel. -/
def likeMatchAux : Nat → List Char → List Char → Bool
  | 0, _, _ => false
  | _ + 1, [], cs => cs.isEmpty
  | f + 1, p :: ps, [] => if p = '%' then likeMatchAux f ps [] else false
  | f + 1, p :: ps, c :: cs =>
    if p = '%' then likeMatchAux f ps (c :: cs) || likeMatchAux f (p :: ps) cs
    else (if p = '_' then true else likeCharEq p c) && likeMatchAux f ps cs

/-- `pattern LIKE`-matches `text` under SQLite's default semantics. -/
def likeMatch (ps cs : List Char) : Bool :=
  likeMatchAux (ps.length + cs.length + 1) ps cs

/-- `cache_delete_prefix` (lib.rs 216-226): builds the pattern
`format!("{}%", prefix)` and runs `DELETE FROM local_cache WHERE key LIKE ?1`. -/
def cache_delete_prefix (st : CacheState) (pre : String) : CacheState :=
  { rows := st.rows.filter (fun r => ! likeMatch (pre.data ++ ['%']) r.key.data) }

/-- A character of a `LIKE` pattern with no special behaviour: not a wildcard
and not an ASCII letter (whose comparison would be case-insensitive). -/
def plainChar (c : Char) : Bool :=
  decide (c ≠ '%') && decide (c ≠ '_') &&
    decide (¬(65 ≤ c.toNat ∧ c.toNat ≤ 90)) && decide (¬(97 ≤ c.toNat ∧ c.toNat ≤ 122))

/-- One row of the `sync_queue` table (`params`/`payload` stored as TEXT). -/
structure SyncRow where
  id : Nat
  action : String
  method : String
  params : StoredText
  payload : StoredText
  created_at : Int

/-- The job value returned by `queue_list` (struct `SyncJob`), with
`params`/`payload` decoded back to JSON. -/
structure SyncJob where
  id : Nat
  action : String
  method : String
  params : Json
  payload : Json
  created_at : Int

/-- The `sync_queue` table plus its AUTOINCREMENT sequence: `seq` is the
largest rowid ever assigned (SQLite's `sqlite_sequence` entry), so ids are
never reused even after deletion. -/
structure QueueState where
  seq : Nat
  rows : List SyncRow

/-- `queue_add` (lib.rs 228-249): defaults `method` to "POST" and `params` to
the empty object, serializes both JSON columns, inserts the row, and returns
`last_insert_rowid()` — with AUTOINCREMENT this is one past the largest id
ever assigned. -/
def queue_add (s : QueueState) (action : String) (payload : Json)
    (method : Option String) (params : Option Json) (now_ms : Int) :
    Nat × QueueState :=
  let id := s.seq + 1
  let row : SyncRow :=
    { id := id, action := action, method := method.getD "POST",
      params := encodeStored (params.getD (Json.obj [])),
      payload := encodeStored payload, created_at := now_ms }
  (id, { seq := id, rows := s.rows ++ [row] })

/-- Decoding of one fetched row in `queue_list` (lib.rs 261-273): malformed
TEXT in `params`/`payload` degrades to JSON null via `unwrap_or`. -/
def rowToJob (r : SyncRow) : SyncJob :=
  { id := r.id, action := r.action, method := r.method,
    params := (decodeStored r.params).getD Json.null,
    payload := (decodeStored r.payload).getD Json.null,
    created_at := r.created_at }

/-- `ORDER BY id ASC` of the queue query. -/
def orderByIdAsc (rows : List SyncRow) : List SyncRow :=
  rows.insertionSort (fun a b => a.id ≤ b.id)

/-- `queue_list` (lib.rs 251-281): `SELECT ... ORDER BY id ASC LIMIT ?1` with
the limit defaulting to 200; a plain SELECT, so the state comes back
unchanged. -/
def queue_list (s : QueueState) (limit : Option Nat) : List SyncJob × QueueState :=
  (((orderByIdAsc s.rows).take (limit.getD 200)).map rowToJob, s)

/-- `queue_delete` (lib.rs 283-289): `DELETE FROM sync_queue WHERE id = ?1`.
The AUTOINCREMENT sequence is untouched by deletion. -/
def queue_delete (s : QueueState) (id : Nat) : QueueState :=
  { s with rows := s.rows.filter (fun r => decide (r.id ≠ id)) }

/-- `queue_clear` (lib.rs 291-297): `DELETE FROM sync_queue`. -/
def queue_clear (s : QueueState) : QueueState :=
  { s with rows := [] }

/-- `queue_count` (lib.rs 299-306): `SELECT COUNT(*) FROM sync_queue`. -/
def queue_count (s : QueueState) : Nat :=
  s.rows.length

/-- The cancellation registry (struct `UploadState`): a map from upload id to
a shared `Arc<AtomicBool>` flag.  The `Arc` cells live in `heap` and the map
stores their indices, so flag identity (sharing) is explicit. -/
structure UploadState where
  flags : List (String × Nat)
  heap : List Bool

/-- `HashMap::get` on the registry map (at most one binding per key is kept by
the operations below). -/
def lookupRef : List (String × Nat) → String → Option Nat
  | [], _ => none
  | p :: ps, k => if p.1 = k then some p.2 else lookupRef ps k

/-- `UploadState::register` (lib.rs 47-52): allocate a fresh unset flag,
insert it under the id (replacing any prior binding, as `HashMap::insert`
does), and return the shared flag. -/
def UploadState.register (s : UploadState) (upload_id : String) : Nat × UploadState :=
  (s.heap.length,
   { flags := (upload_id, s.heap.length) :: s.flags.filter (fun p => decide (p.1 ≠ upload_id)),
     heap := s.heap ++ [false] })

/-- `UploadState::cancel` (lib.rs 54-61): if a flag is registered under the
id, store `true` into it and report success; otherwise report failure and
touch nothing. -/
def UploadState.cancel (s : UploadState) (upload_id : String) : Bool × UploadState :=
  match lookupRef s.flags upload_id with
  | some ref => (true, { s with heap := s.heap.set ref true })
  | none => (false, s)

/-- `UploadState::remove` (lib.rs 63-66): evict the map entry unconditionally
(the heap cell stays — the `Arc` may still be shared with a reader). -/
def UploadState.remove (s : UploadState) (upload_id : String) : UploadState :=
  { s with flags := s.flags.filter (fun p => decide (p.1 ≠ upload_id)) }

/-- The `upload-progress` event payload (struct `UploadProgress`). -/
structure UploadProgress where
  upload_id : String
  loaded : Nat
  total : Nat
  done : Bool

/-- The streaming reader state (struct `ProgressReader`): the wrapped source
and the Tauri app handle are externalized — the source's behaviour enters each
read step as an argument, and emitted events are returned as outputs. -/
structure ProgressReader where
  total : Nat
  sent : Nat
  last_emit : Nat
  emit_every : Nat
  upload_id : String
  cancel_flag : Bool

/-- `ProgressReader::new` (lib.rs 130-147): counters start at zero and the
coalescing threshold is 64 KiB.  `cancel_flag` is the current value of the
shared registry flag. -/
def ProgressReader.new (total : Nat) (upload_id : String) (cancel_flag : Bool) :
    ProgressReader :=
  { total := total, sent := 0, last_emit := 0, emit_every := 64 * 1024,
    upload_id := upload_id, cancel_flag := cancel_flag }

/-- `ProgressReader::emit` (lib.rs 149-158): produce one `upload-progress`
event and record the emission point.  Event delivery failures are swallowed in
the source (`let _ = self.app.emit(...)`), so emission never fails here. -/
def ProgressReader.emit (r : ProgressReader) (done : Bool) :
    ProgressReader × UploadProgress :=
  ({ r with last_emit := r.sent },
   { upload_id := r.upload_id, loaded := r.sent, total := r.total, done := done })

/-- `u64::saturating_add`. -/
def satAdd64 (a b : Nat) : Nat := min (a + b) (2 ^ 64 - 1)

/-- Outcome of one `self.inner.read(buf)` call on the wrapped source. -/
inductive InnerRead where
  | bytes (n : Nat)
  | fail (msg : String)

/-- Result of one `ProgressReader::read` call.  `cancelled` embeds
`Err(io::Error::new(ErrorKind::Interrupted, "cancelled"))` — the
TransferCancelled condition; `ioErr` embeds an error propagated from the
wrapped source by `?` — the TransferFailed side. -/
inductive ReadResult where
  | cancelled
  | ioErr (msg : String)
  | ok (n : Nat)

/-- `ProgressReader::read` (lib.rs 161-177) as a pure step: given the reader
state and what the wrapped source would produce, return the read result, the
next reader state, and the emitted events (in order).  The cancellation flag
is checked before the source is touched; on a zero-byte read a final
`done = true` event is emitted; otherwise the sent counter accumulates and an
event is emitted exactly when the coalescing condition holds. -/
def ProgressReader.read (r : ProgressReader) (inner : InnerRead) :
    ReadResult × ProgressReader × List UploadProgress :=
  if r.cancel_flag then (.cancelled, r, [])
  else
    match inner with
    | .fail e => (.ioErr e, r, [])
    | .bytes 0 =>
      let er := r.emit true
      (.ok 0, er.1, [er.2])
    | .bytes (n + 1) =>
      let sent' := satAdd64 r.sent (n + 1)
      let r1 : ProgressReader := { r with sent := sent' }
      if r1.emit_every ≤ sent' - r1.last_emit ∨ r1.total ≤ sent' then
        let er := r1.emit (decide (r1.total ≤ sent'))
        (.ok (n + 1), er.1, [er.2])
      else
        (.ok (n + 1), r1, [])

/-- Embeds `url.trim().is_empty()`: true exactly when every character of the
URL is whitespace (so the trimmed string is empty). -/
def trimIsEmpty (s : String) : Bool := s.data.all Char.isWhitespace

/-- Outcome of the single `ureq::post(...).send(reader)` round trip plus
response handling, abstracted as an oracle: a transport error, a failure to
read the response body, or the body text. -/
inductive NetOutcome where
  | transportErr (msg : String)
  | bodyErr (msg : String)
  | body (text : StoredText)

/-- Response handling of `upload_payment_attachment` (lib.rs 335-341):
transport and body errors become string errors; the body text is parsed with
`serde_json::from_str` and returned verbatim. -/
def netResult : NetOutcome → Except String Json
  | .transportErr e => .error e
  | .bodyErr e => .error e
  | .body t =>
    match decodeStored t with
    | some v => .ok v
    | none => .error "invalid response JSON"

/-- `upload_payment_attachment` (lib.rs 308-346): reject a blank URL before
doing anything else; otherwise register a cancellation flag, perform the one
network round trip (abstracted by the oracle), and remove the flag regardless
of outcome.  The third component records whether the network was contacted. -/
def upload_payment_attachment (s : UploadState) (url : String) (payload : Json)
    (upload_id : String) (net : NetOutcome) :
    Except String Json × UploadState × Bool :=
  if trimIsEmpty url then
    (.error "Missing Apps Script URL", s, false)
  else
    let regd := s.register upload_id
    (netResult net, regd.2.remove upload_id, true)

/-- Number of cache rows stored under a key. -/
def keyCount (st : CacheState) (k : String) : Nat :=
  st.rows.countP (fun r => decide (r.key = k))

/-- The ordering used by `ORDER BY id ASC` is total. -/
instance : IsTotal SyncRow (fun a b => a.id ≤ b.id) :=
  ⟨fun a b => Nat.le_total a.id b.id⟩

/-- The ordering used by `ORDER BY id ASC` is transitive. -/
instance : IsTrans SyncRow (fun a b => a.id ≤ b.id) :=
  ⟨fun _ _ _ h₁ h₂ => Nat.le_trans h₁ h₂⟩

/-- The scenario of spec §8: starting from an empty queue, enqueue three jobs
(receiving ids 1, 2, 3) and then delete id 2. -/
def scenario3 : QueueState :=
  queue_delete
    (queue_add
      (queue_add
        (queue_add (⟨0, []⟩ : QueueState) "a" Json.null none none 0).2
        "b" Json.null none none 1).2
      "c" Json.null none none 2).2
    2

/-- A concrete cache row used by the examples below. -/
def sampleRow : CacheRow :=
  { key := "2x", value := StoredText.wellFormed Json.null, updated_at := 0 }

/-- A concrete one-row cache used by the examples below. -/
def sampleCache : CacheState := { rows := [sampleRow] }

/-! ### Helper lemmas -/

theorem lookupRef_filter_ne (ps : List (String × Nat)) (k : String) :
    lookupRef (ps.filter (fun p => decide (p.1 ≠ k))) k = none := by
  induction ps with
  | nil => rfl
  | cons p ps ih =>
    by_cases h : p.1 = k
    · simpa [List.filter_cons, h, lookupRef] using ih
    · simpa [List.filter_cons, h, lookupRef] using ih

theorem set_concat_length (l : List Bool) (a b : Bool) :
    (l ++ [a]).set l.length b = l ++ [b] := by
  induction l with
  | nil => rfl
  | cons c l ih =>
    show c :: (l ++ [a]).set l.length b = c :: (l ++ [b])
    rw [ih]

theorem countP_filter_ne_key (k : String) (L : List CacheRow) :
    (L.filter (fun r => decide (r.key ≠ k))).countP (fun r => decide (r.key = k)) = 0 := by
  rw [List.countP_eq_zero]
  intro a ha
  have h := (List.mem_filter.mp ha).2
  simp only [decide_eq_true_eq] at h ⊢
  exact h

/-! ### Claim theorems -/

/-- C1: if the cancellation flag is set when `ProgressReader::read` is
called, the read fails immediately with the cancellation condition
(`ReadResult.cancelled`, the embedding of TransferCancelled) for every
possible behaviour of the wrapped source: the source is not consumed, the
reader's byte counters are unchanged, and no progress event is produced — and
the cancellation condition is distinct from every propagated I/O failure
(TransferFailed) and from every successful read. -/
theorem C1_cancel_flag_first (r : ProgressReader) (inner : InnerRead)
    (h : r.cancel_flag = true) :
    ProgressReader.read r inner = (.cancelled, r, []) ∧
      (∀ e, ReadResult.cancelled ≠ ReadResult.ioErr e) ∧
      (∀ n, ReadResult.cancelled ≠ ReadResult.ok n) := by
  refine ⟨?_, ?_, ?_⟩
  · simp [ProgressReader.read, h]
  · intro e hc
    exact ReadResult.noConfusion hc
  · intro n hc
    exact ReadResult.noConfusion hc

/-- Witness for C1 at a concrete cancelled reader and a source that would
have produced three bytes. -/
theorem C1_cancel_flag_first_wit :
    ProgressReader.read (ProgressReader.new 10 "u" true) (.bytes 3) =
      (.cancelled, ProgressReader.new 10 "u" true, []) :=
  (C1_cancel_flag_first (ProgressReader.new 10 "u" true) (.bytes 3) rfl).1

/-- C4: round trip — `cache_set` then `cache_get` on the same key returns an
entry holding a value structurally equal to the one written (together with
the written timestamp), for every JSON value, nested structures, empty
containers and unicode text included. -/
theorem C4_cache_round_trip (st : CacheState) (k : String) (v : Json) (t : Int) :
    cache_get (cache_set st k v t) k =
      Except.ok (some { value := v, updated_at := t }) := by
  simp [cache_get, cache_set, lookupRow, encodeStored, decodeStored]

/-- Witness for C4 on a nested value with empty containers and unicode text. -/
theorem C4_cache_round_trip_wit :
    cache_get (cache_set { rows := [] } "ключ"
        (Json.arr [Json.obj [], Json.str "日本語", Json.arr []]) 42) "ключ" =
      Except.ok
        (some ⟨Json.arr [Json.obj [], Json.str "日本語", Json.arr []], 42⟩) :=
  C4_cache_round_trip { rows := [] } "ключ"
    (Json.arr [Json.obj [], Json.str "日本語", Json.arr []]) 42

/-- C5: last write wins — writing a key twice and reading it back returns the
second value and the second timestamp, and after the writes the table holds
exactly one entry under that key (each write fully replaces the prior row). -/
theorem C5_last_write_wins (st : CacheState) (k : String) (v₁ v₂ : Json) (t₁ t₂ : Int) :
    cache_get (cache_set (cache_set st k v₁ t₁) k v₂ t₂) k =
      Except.ok (some { value := v₂, updated_at := t₂ }) ∧
    keyCount (cache_set (cache_set st k v₁ t₁) k v₂ t₂) k = 1 := by
  constructor
  · simp [cache_get, cache_set, lookupRow, encodeStored, decodeStored]
  · simp [keyCount, cache_set, List.countP_cons, countP_filter_ne_key]

/-- Witness for C5 at a concrete key and two concrete values. -/
theorem C5_last_write_wins_wit :
    cache_get (cache_set (cache_set { rows := [] } "k" (Json.num 1) 10) "k"
        (Json.num 2) 11) "k" =
      Except.ok (some { value := Json.num 2, updated_at := 11 }) ∧
    keyCount (cache_set (cache_set { rows := [] } "k" (Json.num 1) 10) "k"
        (Json.num 2) 11) "k" = 1 :=
  C5_last_write_wins { rows := [] } "k" (Json.num 1) (Json.num 2) 10 11

/-- C7: registry lifecycle — after `register(id)`, `cancel(id)` returns true
and stores true into the very flag cell that `register` handed out; after
`remove(id)`, `cancel(id)` returns false and leaves the whole state (map and
every flag) untouched; and `register(id)` binds the id to a fresh cell —
allocated past every previously existing flag — holding false, so the last
registration wins. -/
theorem C7_registry_lifecycle (s : UploadState) (uid : String) :
    (((s.register uid).2.cancel uid).1 = true) ∧
    ((((s.register uid).2.cancel uid).2.heap)[(s.register uid).1]? = some true) ∧
    ((s.remove uid).cancel uid = (false, s.remove uid)) ∧
    (lookupRef (s.register uid).2.flags uid = some (s.register uid).1) ∧
    (((s.register uid).2.heap)[(s.register uid).1]? = some false) ∧
    ((s.register uid).1 = s.heap.length) := by
  have hlook : lookupRef (s.register uid).2.flags uid = some s.heap.length := by
    simp [UploadState.register, lookupRef]
  have hrm : lookupRef ((s.remove uid).flags) uid = none := by
    have h := lookupRef_filter_ne s.flags uid
    simpa [UploadState.remove] using h
  refine ⟨?_, ?_, ?_, hlook, ?_, rfl⟩
  · simp [UploadState.cancel, hlook]
  · simp only [UploadState.cancel, hlook]
    show ((s.heap ++ [false]).set s.heap.length true)[s.heap.length]? = some true
    rw [set_concat_length]
    exact List.getElem?_concat_length s.heap true
  · simp [UploadState.cancel, hrm]
  · exact List.getElem?_concat_length s.heap false

/-- Witness for C7 at the empty registry and a concrete id. -/
theorem C7_registry_lifecycle_wit :
    ((({ flags := [], heap := [] } : UploadState).register "u").2.cancel "u").1 = true ∧
    (({ flags := [], heap := [] } : UploadState).remove "u").cancel "u" =
      (false, ({ flags := [], heap := [] } : UploadState).remove "u") :=
  ⟨(C7_registry_lifecycle { flags := [], heap := [] } "u").1,
   (C7_registry_lifecycle { flags := [], heap := [] } "u").2.2.1⟩

/-- C8: `cache_get` returns the stored entry when the key is present and
absence when it is not; on a malformed stored value the call still succeeds
(`Except.ok`, never an error), returning an entry whose value is JSON null
together with the stored `updated_at`. -/
theorem C8_cache_get_decode (st : CacheState) (k : String) :
    (lookupRow st.rows k = none → cache_get st k = Except.ok none) ∧
    (∀ (k' : String) (v : Json) (t : Int),
        lookupRow st.rows k = some { key := k', value := .wellFormed v, updated_at := t } →
        cache_get st k = Except.ok (some { value := v, updated_at := t })) ∧
    (∀ (k' m : String) (t : Int),
        lookupRow st.rows k = some { key := k', value := .malformed m, updated_at := t } →
        cache_get st k = Except.ok (some { value := Json.null, updated_at := t })) := by
  refine ⟨?_, ?_, ?_⟩
  · intro h
    simp [cache_get, h]
  · intro k' v t h
    simp [cache_get, h, decodeStored]
  · intro k' m t h
    simp [cache_get, h, decodeStored]

/-- Witness for C8: a concrete table with one malformed row yields a null
entry for its key and absence for a missing key. -/
theorem C8_cache_get_decode_wit :
    cache_get { rows := [{ key := "bad", value := .malformed "oops", updated_at := 7 }] }
        "bad" = Except.ok (some { value := Json.null, updated_at := 7 }) ∧
    cache_get { rows := [{ key := "bad", value := .malformed "oops", updated_at := 7 }] }
        "missing" = Except.ok none :=
  ⟨(C8_cache_get_decode _ "bad").2.2 "bad" "oops" 7 (by simp [lookupRow]),
   (C8_cache_get_decode _ "missing").1 (by simp [lookupRow])⟩

/-- C10: a URL that is empty or all whitespace makes
`upload_payment_attachment` fail immediately with exactly
"Missing Apps Script URL": the registry comes back unchanged (no cancellation
flag was registered) and the network-contacted marker is false, for every
possible network behaviour. -/
theorem C10_blank_url_rejected (s : UploadState) (url : String) (payload : Json)
    (uid : String) (net : NetOutcome) (h : trimIsEmpty url = true) :
    upload_payment_attachment s url payload uid net =
      (Except.error "Missing Apps Script URL", s, false) := by
  simp [upload_payment_attachment, h]

/-- Witness for C10 at a whitespace-only URL. -/
theorem C10_blank_url_rejected_wit :
    upload_payment_attachment { flags := [], heap := [] } "  " Json.null "u"
        (.transportErr "x") =
      (Except.error "Missing Apps Script URL", { flags := [], heap := [] }, false) :=
  C10_blank_url_rejected { flags := [], heap := [] } "  " Json.null "u"
    (.transportErr "x") (by decide)

/-- Sorting by id never invents or drops rows. -/
theorem mem_orderByIdAsc {r : SyncRow} {rows : List SyncRow} :
    r ∈ orderByIdAsc rows ↔ r ∈ rows :=
  (List.perm_insertionSort _ rows).mem_iff

/-- C3: queue id and deletion discipline — `queue_add` returns one past the
AUTOINCREMENT sequence (so ids grow strictly across successive adds and, the
sequence never decreasing, a deleted id is never handed out again),
`queue_delete` leaves the sequence untouched, a deleted id never appears in a
subsequent `queue_list`, `queue_count` is exactly the number of remaining
rows, and the §8 scenario holds: ids 1, 2, 3, delete 2, list gives [1, 3],
count gives 2, and the next add yields 4. -/
theorem C3_queue_ids :
    (∀ (s : QueueState) (a : String) (p : Json) (m : Option String)
        (q : Option Json) (t : Int), (queue_add s a p m q t).1 = s.seq + 1) ∧
    (∀ (s : QueueState) (a : String) (p : Json) (m : Option String)
        (q : Option Json) (t : Int) (a' : String) (p' : Json)
        (m' : Option String) (q' : Option Json) (t' : Int),
        (queue_add s a p m q t).1 <
          (queue_add (queue_add s a p m q t).2 a' p' m' q' t').1) ∧
    (∀ (s : QueueState) (id : Nat), (queue_delete s id).seq = s.seq) ∧
    (∀ (s : QueueState) (id : Nat) (lim : Option Nat),
        id ∉ ((queue_list (queue_delete s id) lim).1.map SyncJob.id)) ∧
    (∀ s : QueueState, queue_count s = s.rows.length) ∧
    ((queue_list scenario3 (some 10)).1.map SyncJob.id = [1, 3] ∧
      queue_count scenario3 = 2 ∧
      (queue_add scenario3 "d" Json.null none none 3).1 = 4) := by
  refine ⟨fun _ _ _ _ _ _ => rfl, ?_, fun _ _ => rfl, ?_, fun _ => rfl, ?_⟩
  · intro s a p m q t a' p' m' q' t'
    show s.seq + 1 < s.seq + 1 + 1
    exact Nat.lt_succ_self _
  · intro s id lim h
    obtain ⟨j, hj, hid⟩ := List.mem_map.mp h
    obtain ⟨r, hr, rfl⟩ := List.mem_map.mp hj
    have hr₁ : r ∈ orderByIdAsc (queue_delete s id).rows := List.mem_of_mem_take hr
    have hr₂ : r ∈ (queue_delete s id).rows := mem_orderByIdAsc.mp hr₁
    have hr₃ := (List.mem_filter.mp hr₂).2
    simp only [decide_eq_true_eq] at hr₃
    exact hr₃ hid
  · refine ⟨by decide, by decide, by decide⟩

/-- Witness for C3: the very first add on the empty queue yields id 1. -/
theorem C3_queue_ids_wit :
    (queue_add (⟨0, []⟩ : QueueState) "a" Json.null none none 0).1 = 1 :=
  C3_queue_ids.1 (⟨0, []⟩ : QueueState) "a" Json.null none none 0

/-- C6: `queue_list` returns at most `limit` jobs (200 when unspecified),
ordered ascending by id, and leaves the queue state exactly as it was (the
statement is a plain SELECT). -/
theorem C6_queue_list_spec (s : QueueState) (limit : Option Nat) :
    (queue_list s limit).1.length ≤ limit.getD 200 ∧
    List.Sorted (fun a b : SyncJob => a.id ≤ b.id) (queue_list s limit).1 ∧
    (queue_list s limit).2 = s := by
  refine ⟨?_, ?_, rfl⟩
  · simp only [queue_list, List.length_map, List.length_take]
    exact Nat.min_le_left _ _
  · have hs : List.Sorted (fun a b : SyncRow => a.id ≤ b.id) (orderByIdAsc s.rows) :=
      List.sorted_insertionSort _ s.rows
    have ht := List.Pairwise.sublist (List.take_sublist (limit.getD 200) _) hs
    exact List.pairwise_map.mpr ht

/-- Witness for C6 on a queue holding one job, with the default limit. -/
theorem C6_queue_list_spec_wit :
    (queue_list (queue_add (⟨0, []⟩ : QueueState) "a" Json.null none none 0).2 none).1.length
        ≤ 200 ∧
    List.Sorted (fun a b : SyncJob => a.id ≤ b.id)
      (queue_list (queue_add (⟨0, []⟩ : QueueState) "a" Json.null none none 0).2 none).1 ∧
    (queue_list (queue_add (⟨0, []⟩ : QueueState) "a" Json.null none none 0).2 none).2 =
      (queue_add (⟨0, []⟩ : QueueState) "a" Json.null none none 0).2 :=
  C6_queue_list_spec (queue_add (⟨0, []⟩ : QueueState) "a" Json.null none none 0).2 none

/-- C9: progress coalescing — with the flag clear and the default 64 KiB
threshold, a successful read of one or more bytes emits a progress event
exactly when the bytes accumulated since the last emission reach 64 KiB or
the accumulated total has reached the stream's total length (the event then
reports the accumulated count, and is marked done exactly when the total is
reached), and a zero-byte read (end of stream) emits a final event with
`done = true`. -/
theorem C9_progress_coalescing (r : ProgressReader) (hf : r.cancel_flag = false)
    (he : r.emit_every = 64 * 1024) :
    ProgressReader.read r (.bytes 0) =
      (.ok 0, { r with last_emit := r.sent },
        [{ upload_id := r.upload_id, loaded := r.sent, total := r.total,
           done := true }]) ∧
    ∀ n : Nat,
      ProgressReader.read r (.bytes (n + 1)) =
        if 64 * 1024 ≤ satAdd64 r.sent (n + 1) - r.last_emit ∨
            r.total ≤ satAdd64 r.sent (n + 1) then
          (.ok (n + 1),
            { r with sent := satAdd64 r.sent (n + 1),
                     last_emit := satAdd64 r.sent (n + 1) },
            [{ upload_id := r.upload_id, loaded := satAdd64 r.sent (n + 1),
               total := r.total,
               done := decide (r.total ≤ satAdd64 r.sent (n + 1)) }])
        else (.ok (n + 1), { r with sent := satAdd64 r.sent (n + 1) }, []) := by
  constructor
  · simp [ProgressReader.read, hf, ProgressReader.emit]
  · intro n
    by_cases hc : 64 * 1024 ≤ satAdd64 r.sent (n + 1) - r.last_emit ∨
        r.total ≤ satAdd64 r.sent (n + 1)
    · simp [ProgressReader.read, hf, he, hc, ProgressReader.emit]
    · simp [ProgressReader.read, hf, he, hc, ProgressReader.emit]

/-- Witness for C9 on a 5-byte stream: the end-of-stream read emits the final
`done = true` event, and a read reaching the total emits a done event
reporting 5 of 5 bytes. -/
theorem C9_progress_coalescing_wit :
    ProgressReader.read (ProgressReader.new 5 "u" false) (.bytes 0) =
      (.ok 0, ProgressReader.new 5 "u" false,
        [{ upload_id := "u", loaded := 0, total := 5, done := true }]) ∧
    ProgressReader.read (ProgressReader.new 5 "u" false) (.bytes 5) =
      (.ok 5,
        { total := 5, sent := 5, last_emit := 5, emit_every := 65536,
          upload_id := "u", cancel_flag := false },
        [{ upload_id := "u", loaded := 5, total := 5, done := true }]) := by
  constructor
  · exact (C9_progress_coalescing (ProgressReader.new 5 "u" false) rfl rfl).1
  · have h := (C9_progress_coalescing (ProgressReader.new 5 "u" false) rfl rfl).2 4
    simpa [satAdd64, ProgressReader.new] using h

/-- A `Char.ofNat` in the ASCII range decodes back to the same code point. -/
theorem toNat_ofNat_small (n : Nat) (h : n < 256) : (Char.ofNat n).toNat = n := by
  unfold Char.ofNat
  rw [dif_pos]
  · rfl
  · exact Or.inl (by omega)

/-- A trailing `%` in a `LIKE` pattern matches every remaining string. -/
theorem likeMatchAux_pct (cs : List Char) :
    ∀ f, cs.length + 1 < f → likeMatchAux f ['%'] cs = true := by
  induction cs with
  | nil =>
    intro f hf
    rcases f with _ | _ | g
    · omega
    · omega
    · rfl
  | cons c cs ih =>
    intro f hf
    rcases f with _ | g
    · omega
    · have hg : cs.length + 1 < g := by
        simp only [List.length_cons] at hf
        omega
      have h0 : likeMatchAux g [] (c :: cs) = false := by
        rcases g with _ | g'
        · omega
        · rfl
      have h1 := ih g hg
      simp [likeMatchAux, h0, h1]

/-- On a pattern character that is neither a wildcard nor an ASCII letter,
`LIKE` character comparison is plain equality. -/
theorem likeCharEq_plain (a c : Char) (ha : plainChar a = true) :
    (likeCharEq a c = true) ↔ a = c := by
  have ha' := ha
  simp only [plainChar, Bool.and_eq_true, decide_eq_true_eq] at ha'
  obtain ⟨⟨⟨h1, h2⟩, h3⟩, h4⟩ := ha'
  have hla : asciiLower a = a := by
    unfold asciiLower
    rw [if_neg h3]
  by_cases hc : 65 ≤ c.toNat ∧ c.toNat ≤ 90
  · have hlc : asciiLower c = Char.ofNat (c.toNat + 32) := by
      unfold asciiLower
      rw [if_pos hc]
    have htn : (Char.ofNat (c.toNat + 32)).toNat = c.toNat + 32 :=
      toNat_ofNat_small _ (by omega)
    constructor
    · intro h
      exfalso
      have heq : a = Char.ofNat (c.toNat + 32) := by
        rw [likeCharEq, hla, hlc] at h
        exact eq_of_beq h
      have hn : a.toNat = c.toNat + 32 := by rw [heq, htn]
      exact h4 ⟨by omega, by omega⟩
    · intro h
      exfalso
      exact h3 (h ▸ hc)
  · have hlc : asciiLower c = c := by
      unfold asciiLower
      rw [if_neg hc]
    rw [likeCharEq, hla, hlc]
    exact beq_iff_eq

/-- With sufficient fuel, a pattern of plain characters followed by `%`
`LIKE`-matches exactly the strings it starts character for character. -/
theorem likeMatchAux_plain (p : List Char) (hp : ∀ c ∈ p, plainChar c = true) :
    ∀ (k : List Char) (f : Nat), p.length + k.length + 1 < f →
      (likeMatchAux f (p ++ ['%']) k = true ↔ p.isPrefixOf k = true) := by
  induction p with
  | nil =>
    intro k f hf
    have h := likeMatchAux_pct k f (by simpa using hf)
    simp [h, List.isPrefixOf]
  | cons a p ih =>
    intro k f hf
    have ha : plainChar a = true := hp a (by simp)
    have hp' : ∀ c ∈ p, plainChar c = true := fun c hc => hp c (by simp [hc])
    have han : a ≠ '%' := by
      have := ha
      simp only [plainChar, Bool.and_eq_true, decide_eq_true_eq] at this
      exact this.1.1.1
    have hau : a ≠ '_' := by
      have := ha
      simp only [plainChar, Bool.and_eq_true, decide_eq_true_eq] at this
      exact this.1.1.2
    rcases f with _ | g
    · omega
    · rcases k with _ | ⟨c, k'⟩
      · simp [likeMatchAux, han, List.isPrefixOf]
      · have hg : p.length + k'.length + 1 < g := by
          simp only [List.length_cons] at hf
          omega
        have hrec := ih hp' k' g hg
        simp only [List.cons_append, likeMatchAux, if_neg han, if_neg hau,
          List.isPrefixOf, Bool.and_eq_true, List.append_eq]
        rw [hrec, likeCharEq_plain a c ha, beq_iff_eq]

/-- A pattern of plain characters followed by `%` `LIKE`-matches exactly the
strings having the plain part as an exact character-for-character start. -/
theorem likeMatch_plain (p k : List Char) (hp : ∀ c ∈ p, plainChar c = true) :
    (likeMatch (p ++ ['%']) k = true) ↔ p.isPrefixOf k = true := by
  have h := likeMatchAux_plain p hp k ((p ++ ['%']).length + k.length + 1)
    (by simp [List.length_append])
  simpa [likeMatch] using h

/-- C2 counterexample: with the single cached key "ab" and the prefix "a_",
the key "ab" does not start with "a_", yet `cache_delete_prefix "a_"` removes
it — the SQL LIKE pattern treats the underscore inside the prefix as a
single-character wildcard, so deletion is not exact prefix matching. -/
theorem C2_exact_match_cex :
    List.isPrefixOf "a_".data "ab".data = false ∧
    cache_get ( cache_delete_prefix (cache_set { rows := [] } "ab" Json.null 0) "a_")
        "ab" = Except.ok none := by
  constructor
  · decide
  · rfl

/-- C2 (amended): `cache_delete_prefix` removes exactly the rows whose key
matches the SQLite LIKE pattern built from the prefix followed by `%` — where
`%` and `_` inside the prefix act as wildcards and ASCII letters compare
case-insensitively — leaving every other row unchanged; in particular, when
the prefix contains no `%`, no `_` and no ASCII letter, it removes exactly
the rows whose key starts with the prefix character for character. -/
theorem C2_like_semantics (st : CacheState) (pre : String) :
    (∀ r : CacheRow, r ∈ ( cache_delete_prefix st pre).rows ↔
        r ∈ st.rows ∧ likeMatch (pre.data ++ ['%']) r.key.data = false) ∧
    ((∀ c ∈ pre.data, plainChar c = true) →
      ∀ r : CacheRow, r ∈ ( cache_delete_prefix st pre).rows ↔
        r ∈ st.rows ∧ List.isPrefixOf pre.data r.key.data = false) := by
  have hmem : ∀ r : CacheRow, r ∈ ( cache_delete_prefix st pre).rows ↔
      r ∈ st.rows ∧ likeMatch (pre.data ++ ['%']) r.key.data = false := by
    intro r
    simp [ cache_delete_prefix, List.mem_filter]
  refine ⟨hmem, ?_⟩
  intro hp r
  rw [hmem r]
  constructor
  · rintro ⟨h1, h2⟩
    refine ⟨h1, ?_⟩
    cases hpre : List.isPrefixOf pre.data r.key.data
    · rfl
    · exact absurd ((likeMatch_plain pre.data r.key.data hp).mpr hpre) (by simp [h2])
  · rintro ⟨h1, h2⟩
    refine ⟨h1, ?_⟩
    cases hlm : likeMatch (pre.data ++ ['%']) r.key.data
    · rfl
    · exact absurd ((likeMatch_plain pre.data r.key.data hp).mp hlm) (by simp [h2])

/-- Witness for the amended C2 on a one-row cache and the wildcard-free,
letter-free prefix "1/". -/
theorem C2_like_semantics_wit :
    sampleRow ∈ ( cache_delete_prefix sampleCache "1/").rows ↔
      sampleRow ∈ sampleCache.rows ∧
        List.isPrefixOf "1/".data sampleRow.key.data = false :=
  (C2_like_semantics sampleCache "1/").2 (by decide) sampleRow
